import Mathlib

/-! Shallow embedding of the ZIM reader's cluster layer (src/cluster.rs and
src/errors.rs): compression-scheme dispatch, cluster details-byte parsing,
blob-offset-table parsing, cluster construction, lazy decompression and
blob slicing.  Bytes are natural numbers below 256, byte buffers are lists.
Rust panics (failed assertions, out-of-range indexing, checked-arithmetic
underflow, `todo` markers and `Option::unwrap` on `None`) are modelled
explicitly by the `panic` outcome of `RustResult`. -/

namespace Zim

/-- Error type of src/errors.rs restricted to the variants the cluster layer
can produce; `Parsing` abstracts the wrapped io/bitreader causes. -/
inductive Error where
  | UnknownCompression : Nat → Error
  | InvalidClusterExtension : Error
  | MissingBlobList : Error
  | OutOfBounds : Error
  | Parsing : Error
  deriving DecidableEq

/-- Outcome of a Rust computation: a value, a typed error, or a panic. -/
inductive RustResult (α : Type) where
  | ok : α → RustResult α
  | error : Error → RustResult α
  | panic : RustResult α
  deriving DecidableEq

def RustResult.map {α β : Type} (f : α → β) : RustResult α → RustResult β
  | .ok a => .ok (f a)
  | .error e => .error e
  | .panic => .panic

/-- Compression schemes of src/cluster.rs (`enum Compression`). -/
inductive Compression where
  | None : Compression
  | Zlib : Compression
  | Bzip2 : Compression
  | Lzma2 : Compression
  | Zstd : Compression
  deriving DecidableEq

/-- `Compression::from` (src/cluster.rs, lines 32-43). -/
def Compression.fromRaw (raw : Nat) : RustResult Compression :=
  match raw with
  | 0 => .ok .None
  | 1 => .ok .None
  | 2 => .ok .Zlib
  | 3 => .ok .Bzip2
  | 4 => .ok .Lzma2
  | 5 => .ok .Zstd
  | _ => .error (.UnknownCompression raw)

/-- Big-endian bit reader over a byte list, modelling the `bitreader` crate:
bits are consumed from the most significant end of each byte. -/
structure BitReader where
  bytes : List Nat
  pos : Nat
  deriving DecidableEq

/-- Bit number `i` of the stream, most-significant bit of each byte first. -/
def BitReader.bit (r : BitReader) (i : Nat) : Nat :=
  r.bytes.getD (i / 8) 0 / 2 ^ (7 - i % 8) % 2

/-- Read `n` bits, most significant first; fails past the end of the data. -/
def BitReader.readBits (r : BitReader) (n : Nat) : RustResult (Nat × BitReader) :=
  if r.pos + n ≤ 8 * r.bytes.length then
    .ok ((List.range n).foldl (fun acc j => acc * 2 + r.bit (r.pos + j)) 0,
         { r with pos := r.pos + n })
  else .error .Parsing

/-- `parse_details` (src/cluster.rs, lines 277-287): skip the 3 reserved
bits, read the extended flag, read the 4-bit compression code. -/
def parse_details (details : Nat) : RustResult (Bool × Compression) :=
  let r0 : BitReader := ⟨[details % 256], 0⟩
  match r0.readBits 3 with
  | .error e => .error e
  | .panic => .panic
  | .ok (_, r1) =>
    match r1.readBits 1 with
    | .error e => .error e
    | .panic => .panic
    | .ok (b, r2) =>
      match r2.readBits 4 with
      | .error e => .error e
      | .panic => .panic
      | .ok (c, _) => (Compression.fromRaw c).map (fun comp => (b == 1, comp))

/-- Read a `w`-byte little-endian unsigned integer from the front of a byte
list, returning the value and the remaining bytes; `none` at end of data
(the cursor reads of `byteorder` fail with an EOF io error there). -/
def readLE : Nat → List Nat → Option (Nat × List Nat)
  | 0, data => some (0, data)
  | _ + 1, [] => none
  | w + 1, b :: rest =>
    match readLE w rest with
    | none => none
    | some (v, r) => some (b % 256 + 256 * v, r)

/-- Width of one blob-offset entry: 8 bytes extended, 4 bytes normal. -/
def offWidth (extended : Bool) : Nat := if extended then 8 else 4

/-- The read loop of `parse_blob_list`: read `n` further offsets. -/
def readEntries (w : Nat) : Nat → List Nat → RustResult (List Nat)
  | 0, _ => .ok []
  | n + 1, data =>
    match readLE w data with
    | none => .error .Parsing
    | some (v, rest) =>
      match readEntries w n rest with
      | .ok vs => .ok (v :: vs)
      | .error e => .error e
      | .panic => .panic

/-- `parse_blob_list` (src/cluster.rs, lines 289-312).  The blob count is
`first / width`; when `first < width` that count is 0 and the Rust loop
bound `count as usize - 1` underflows, which is a panic under Rust's
checked (debug) arithmetic — modelled here by the `panic` outcome. -/
def parse_blob_list (data : List Nat) (extended : Bool) : RustResult (List Nat) :=
  let width := offWidth extended
  match readLE width data with
  | none => .error .Parsing
  | some (first, rest) =>
    let count := first / width
    if count = 0 then .panic
    else
      match readEntries width (count - 1) rest with
      | .ok entries => .ok (first :: entries)
      | .error e => .error e
      | .panic => .panic

/-- Rust slice indexing `v[s..e]`: panics when `s > e` or `e > v.len()`. -/
def rustSlice (v : List Nat) (s e : Nat) : RustResult (List Nat) :=
  if s ≤ e ∧ e ≤ v.length then .ok ((v.drop s).take (e - s)) else .panic

/-- State of `InnerCluster` (src/cluster.rs, lines 52-61). -/
structure InnerCluster where
  extended : Bool
  compression : Compression
  start : Nat
  end_ : Nat
  size : Nat
  view : List Nat
  blob_list : Option (List Nat)
  decompressed : Option (List Nat)
  deriving DecidableEq

/-- `cluster_list[idx]` of `InnerCluster::new` (the cluster's start offset). -/
def startOf (cluster_list : List Nat) (idx : Nat) : Nat :=
  cluster_list.getD idx 0

/-- The cluster's end offset: the next cluster's start offset, or the
checksum position for the last cluster (src/cluster.rs, lines 156-160). -/
def endOf (cluster_list : List Nat) (idx : Nat) (checksum_pos : Nat) : Nat :=
  if idx < cluster_list.length - 1 then cluster_list.getD (idx + 1) 0
  else checksum_pos

/-- `master_view.get(start..end)` of `InnerCluster::new`: `none` when the
range exceeds the mapped region (src/cluster.rs, lines 164-166). -/
def clusterView (master_view cluster_list : List Nat) (idx checksum_pos : Nat) :
    Option (List Nat) :=
  let s := startOf cluster_list idx
  let e := endOf cluster_list idx checksum_pos
  if s ≤ e ∧ e ≤ master_view.length then
    some ((master_view.drop s).take (e - s))
  else none

/-- `InnerCluster::new` (src/cluster.rs, lines 147-193).  The `Vec` index
`cluster_list[idx]` and the `assert` that the range is non-empty are
panics, not typed errors. -/
def InnerCluster.new (master_view cluster_list : List Nat)
    (idx checksum_pos version : Nat) : RustResult InnerCluster :=
  if idx < cluster_list.length then
    let start := startOf cluster_list idx
    let end_ := endOf cluster_list idx checksum_pos
    if end_ > start then
      let cluster_size := end_ - start
      match clusterView master_view cluster_list idx checksum_pos with
      | none => .error .OutOfBounds
      | some cv =>
        match cv with
        | [] => .error .OutOfBounds
        | d :: _ =>
          match parse_details d with
          | .error e => .error e
          | .panic => .panic
          | .ok (extended, compression) =>
            if extended = true ∧ version ≠ 6 then .error .InvalidClusterExtension
            else
              match (if compression = Compression.None
                     then (parse_blob_list (cv.drop 1) extended).map some
                     else .ok none) with
              | .error e => .error e
              | .panic => .panic
              | .ok blob_list =>
                .ok { extended, compression, start, end_, size := cluster_size,
                      view := cv, blob_list, decompressed := none }
    else .panic
  else .panic

/-- `InnerCluster::needs_decompression` (src/cluster.rs, lines 195-202). -/
def InnerCluster.needs_decompression (st : InnerCluster) : Bool :=
  match st.compression with
  | .Lzma2 | .Bzip2 | .Zlib | .Zstd =>
      st.decompressed.isNone || st.blob_list.isNone
  | .None => false

/-- `InnerCluster::decompress` (src/cluster.rs, lines 204-239).  The xz and
zstd decoders are external library code, passed in as parameters; the Zlib
and Bzip2 arms are `todo` markers in the source, i.e. panics. -/
def InnerCluster.decompress (xz zstd : List Nat → RustResult (List Nat))
    (st : InnerCluster) : RustResult InnerCluster :=
  match (if st.decompressed.isNone then
           match st.compression with
           | .Lzma2 =>
             match xz (st.view.drop 1) with
             | .ok d => .ok { st with decompressed := some d }
             | .error e => .error e
             | .panic => .panic
           | .Bzip2 => .panic
           | .Zlib => .panic
           | .Zstd =>
             match zstd (st.view.drop 1) with
             | .ok d => .ok { st with decompressed := some d }
             | .error e => .error e
             | .panic => .panic
           | .None => .ok st
         else .ok st : RustResult InnerCluster) with
  | .error e => .error e
  | .panic => .panic
  | .ok st1 =>
    if st1.blob_list.isNone then
      match st1.compression with
      | .Lzma2 | .Bzip2 | .Zlib | .Zstd =>
        match st1.decompressed with
        | some d =>
          match parse_blob_list d st1.extended with
          | .ok bl => .ok { st1 with blob_list := some bl }
          | .error e => .error e
          | .panic => .panic
        | none => .panic
      | .None => .ok st1
    else .ok st1

/-- The blob's end offset inside `InnerCluster::get_blob`: the next table
entry, or the cluster size for the last entry (src/cluster.rs, 245-250). -/
def blobEnd (st : InnerCluster) (list : List Nat) (idx : Nat) : Nat :=
  if list.length > idx + 1 then list.getD (idx + 1) 0 else st.size

/-- `InnerCluster::get_blob` (src/cluster.rs, lines 241-265).  The `Vec`
index `list[idx]` is a panic when out of range, and the `unwrap` of the
decompressed buffer is a panic when it is absent. -/
def InnerCluster.get_blob (st : InnerCluster) (idx : Nat) : RustResult (List Nat) :=
  match st.blob_list with
  | none => .error .MissingBlobList
  | some list =>
    if idx < list.length then
      let start := list.getD idx 0
      let end_ := blobEnd st list idx
      match st.compression with
      | .Lzma2 | .Bzip2 | .Zlib | .Zstd =>
        match st.decompressed with
        | none => .panic
        | some d => rustSlice d start end_
      | .None => rustSlice st.view (1 + start) (1 + end_)
    else .panic

/-- `Cluster::get_blob` (src/cluster.rs, lines 107-123): ensure the cluster
is decompressed, then slice the blob.  The lock-guarded shared state is
modelled by explicit state passing: the call returns the state it read
the blob from together with the blob's bytes. -/
def Cluster.get_blob (xz zstd : List Nat → RustResult (List Nat))
    (st : InnerCluster) (idx : Nat) : RustResult (InnerCluster × List Nat) :=
  match (if st.needs_decompression then st.decompress xz zstd else .ok st) with
  | .error e => .error e
  | .panic => .panic
  | .ok st1 =>
    match st1.get_blob idx with
    | .error e => .error e
    | .panic => .panic
    | .ok b => .ok (st1, b)

/-! Concrete states used by the witnesses and counterexamples below. -/

/-- An uncompressed cluster in the ready state over a 43-byte raw view
(details byte plus 42 data bytes) with blob-offset table `[8, 20, 35]`. -/
def c1cluster : InnerCluster :=
  { extended := false, compression := .None, start := 0, end_ := 43, size := 43,
    view := List.range 43, blob_list := some [8, 20, 35], decompressed := none }

/-- A compressed cluster in the ready state: a 3-entry blob-offset table
over a 20-byte decompressed buffer. -/
def c1zstd : InnerCluster :=
  { extended := false, compression := .Zstd, start := 0, end_ := 9, size := 9,
    view := List.range 9, blob_list := some [8, 12, 16],
    decompressed := some (List.range 20) }

/-- The cluster of the spec's scenario: details byte `0x00`, raw view of
43 bytes, blob-offset table `[8, 20, 35]`. -/
def c2cluster : InnerCluster :=
  { extended := false, compression := .None, start := 0, end_ := 43, size := 43,
    view := List.range 43, blob_list := some [8, 20, 35], decompressed := none }

/-- A compressed cluster that is already in the ready state: decompressed
buffer and blob-offset table both present. -/
def c3cluster : InnerCluster :=
  { extended := false, compression := .Zstd, start := 0, end_ := 9, size := 9,
    view := List.range 9, blob_list := some [8, 12], decompressed := some (List.range 20) }

/-- A decoder stub that panics if invoked; its use in a successful run
shows the decoder is never called. -/
def c3dec : List Nat → RustResult (List Nat) := fun _ => .panic

/-- A Zlib cluster that has not been decompressed yet. -/
def c6zlib : InnerCluster :=
  { extended := false, compression := .Zlib, start := 0, end_ := 9, size := 9,
    view := List.range 9, blob_list := none, decompressed := none }

/-- A Bzip2 cluster that has not been decompressed yet. -/
def c6bzip2 : InnerCluster :=
  { extended := false, compression := .Bzip2, start := 0, end_ := 9, size := 9,
    view := List.range 9, blob_list := none, decompressed := none }

/-- An identity decoder stub for the C6 witness. -/
def c6dec : List Nat → RustResult (List Nat) := fun d => .ok d

/-- An uncompressed cluster in the ready state with a 2-entry table. -/
def c8cluster : InnerCluster :=
  { extended := false, compression := .None, start := 0, end_ := 30, size := 30,
    view := List.range 30, blob_list := some [8, 20], decompressed := none }

/-- A compressed cluster whose blob-offset table does not exist yet. -/
def c8nolist : InnerCluster :=
  { extended := false, compression := .Zstd, start := 0, end_ := 30, size := 30,
    view := List.range 30, blob_list := none, decompressed := none }

/-! Helper lemmas shared by the proofs below. -/

theorem headD_take {l : List Nat} {k : Nat} (hk : 0 < k) (d : Nat) :
    (l.take k).headD d = l.headD d := by
  cases l with
  | nil => simp
  | cons a t =>
    cases k with
    | zero => exact absurd hk (by simp)
    | succ k => simp [List.take]

theorem readEntries_ne_panic (w : Nat) : ∀ (n : Nat) (data : List Nat),
    readEntries w n data ≠ .panic := by
  intro n
  induction n with
  | zero => intro data; simp [readEntries]
  | succ n ih =>
    intro data
    simp only [readEntries]
    cases hr : readLE w data with
    | none => simp
    | some vr =>
      obtain ⟨v, rest⟩ := vr
      simp only
      cases he : readEntries w n rest with
      | ok vs => simp
      | error e => simp
      | panic => exact absurd he (ih rest)

theorem readEntries_error_parsing (w : Nat) : ∀ (n : Nat) (data : List Nat) (e : Error),
    readEntries w n data = .error e → e = .Parsing := by
  intro n
  induction n with
  | zero => intro data e h; simp [readEntries] at h
  | succ n ih =>
    intro data e h
    simp only [readEntries] at h
    cases hr : readLE w data with
    | none => rw [hr] at h; simp at h; exact h.symm
    | some vr =>
      obtain ⟨v, rest⟩ := vr
      rw [hr] at h
      simp only at h
      cases he : readEntries w n rest with
      | ok vs => rw [he] at h; simp at h
      | error e2 =>
        rw [he] at h
        simp only [RustResult.error.injEq] at h
        exact h ▸ ih rest e2 he
      | panic => exact absurd he (readEntries_ne_panic w n rest)

theorem parse_blob_list_error_parsing (data : List Nat) (ext : Bool) (e : Error)
    (h : parse_blob_list data ext = .error e) : e = .Parsing := by
  simp only [parse_blob_list] at h
  cases hr : readLE (offWidth ext) data with
  | none => rw [hr] at h; simp at h; exact h.symm
  | some fr =>
    obtain ⟨first, rest⟩ := fr
    rw [hr] at h
    simp only at h
    by_cases hc : first / offWidth ext = 0
    · rw [if_pos hc] at h; simp at h
    · rw [if_neg hc] at h
      cases he : readEntries (offWidth ext) (first / offWidth ext - 1) rest with
      | ok vs => rw [he] at h; simp at h
      | error e2 =>
        rw [he] at h
        simp only [RustResult.error.injEq] at h
        exact h ▸ readEntries_error_parsing (offWidth ext) _ rest e2 he
      | panic => exact absurd he (readEntries_ne_panic (offWidth ext) _ rest)

theorem get_blob_ok_ready (st : InnerCluster) (idx : Nat) (b : List Nat)
    (h : st.get_blob idx = .ok b) : st.needs_decompression = false := by
  simp only [InnerCluster.get_blob] at h
  cases hbl : st.blob_list with
  | none => rw [hbl] at h; simp at h
  | some list =>
    rw [hbl] at h
    simp only at h
    by_cases hidx : idx < list.length
    · rw [if_pos hidx] at h
      cases hc : st.compression <;>
        simp only [hc, InnerCluster.needs_decompression, hbl] at h ⊢ <;>
        first
        | rfl
        | (cases hd : st.decompressed with
           | none => rw [hd] at h; simp at h
           | some d => simp [hd])
    · rw [if_neg hidx] at h; simp at h

/-! Claim theorems. -/

/-- C1 counterexample: on a ready `None` cluster (43-byte view, table
`[8, 20, 35]`) the last table entry, blob index 2, is in range, yet
`get_blob 2` panics instead of returning the claimed byte range from
`table[2]` to the cluster size: the shifted range runs from view byte 36
to view byte 44, one past the 43-byte view, because every constructed
cluster's raw view is exactly `cluster_size` bytes long. -/
theorem getBlob_last_entry_counterexample :
    c1cluster.get_blob 2 = .panic ∧
    (RustResult.panic : RustResult (List Nat)) ≠
      .ok ((c1cluster.view.drop 36).take 8) := by decide

/-- C1 amended: for a cluster in the ready state and a blob index in range
for the table, `get_blob` returns the byte range from `table[idx]` to
`table[idx+1]` — or to the cluster size for the last table entry — read
from the decompressed buffer for compressed schemes and from the raw view
shifted one byte past the details byte for the `None` scheme, whenever
that range lies within the respective buffer; but for the `None` scheme's
last table entry, where the view's length equals the cluster size (as in
every constructed cluster), the shifted end offset overruns the view by
one byte and `get_blob` panics instead of returning bytes. -/
theorem getBlob_ranges_amended (st : InnerCluster) (list : List Nat) (idx : Nat)
    (hbl : st.blob_list = some list) (hidx : idx < list.length) :
    (st.compression = Compression.None →
      list.getD idx 0 ≤ blobEnd st list idx →
      1 + blobEnd st list idx ≤ st.view.length →
      st.get_blob idx =
        .ok ((st.view.drop (1 + list.getD idx 0)).take
              (blobEnd st list idx - list.getD idx 0))) ∧
    (st.compression ≠ Compression.None →
      ∀ d, st.decompressed = some d →
      list.getD idx 0 ≤ blobEnd st list idx →
      blobEnd st list idx ≤ d.length →
      st.get_blob idx =
        .ok ((d.drop (list.getD idx 0)).take
              (blobEnd st list idx - list.getD idx 0))) ∧
    (st.compression = Compression.None →
      st.view.length = st.size →
      idx + 1 = list.length →
      st.get_blob idx = .panic) := by
  refine ⟨?_, ?_, ?_⟩
  · intro hc hse hel
    simp only [InnerCluster.get_blob, hbl, hc]
    rw [if_pos hidx]
    simp only [rustSlice]
    rw [if_pos ⟨by omega, hel⟩]
    have harith : 1 + blobEnd st list idx - (1 + list.getD idx 0) =
        blobEnd st list idx - list.getD idx 0 := by omega
    rw [harith]
  · intro hc d hd hse hel
    cases hcomp : st.compression <;>
      simp only [InnerCluster.get_blob, hbl, hcomp, hd] <;>
      first
      | exact absurd hcomp hc
      | (rw [if_pos hidx]
         simp only [rustSlice]
         rw [if_pos ⟨hse, hel⟩])
  · intro hc hvs hlast
    simp only [InnerCluster.get_blob, hbl, hc]
    rw [if_pos hidx]
    have hend : blobEnd st list idx = st.size := by
      simp only [blobEnd]
      rw [if_neg (by omega)]
    rw [hend]
    simp only [rustSlice]
    rw [if_neg (by omega)]

/-- Witness for the amended C1: blob 0 of the `None` cluster is view bytes
9 to 20, a middle blob of a compressed cluster comes from the decompressed
buffer, and the last table entry of the `None` cluster panics. -/
theorem getBlob_ranges_amended_witness :
    c1cluster.get_blob 0 = .ok ((c1cluster.view.drop 9).take 12) ∧
    c1zstd.get_blob 1 = .ok (((List.range 20).drop 12).take 4) ∧
    c1cluster.get_blob 2 = .panic :=
  ⟨(getBlob_ranges_amended c1cluster [8, 20, 35] 0 rfl (by decide)).1
     rfl (by decide) (by decide),
   (getBlob_ranges_amended c1zstd [8, 12, 16] 1 rfl (by decide)).2.1
     (by decide) (List.range 20) rfl (by decide) (by decide),
   (getBlob_ranges_amended c1cluster [8, 20, 35] 2 rfl (by decide)).2.2
     rfl rfl rfl⟩

/-- C2 counterexample: with details byte `0x00` and blob-offset table
`[8, 20, 35]` over a 43-byte raw view, `get_blob 0` yields the view's
bytes 9 to 20, not the claimed bytes 1 to 8. -/
theorem scenario_blob0_counterexample :
    c2cluster.get_blob 0 = .ok (((List.range 43).drop 9).take 12) ∧
    c2cluster.get_blob 0 ≠ .ok (((List.range 43).drop 1).take 8) := by decide

/-- C2 amended: blob 0 is view bytes 9 to 20, blob 1 is view bytes 21 to
35, and blob 2 panics because its computed range, bytes 36 to 43 inclusive,
runs one byte past the 43-byte view. -/
theorem scenario_blob_ranges_amended :
    c2cluster.get_blob 0 = .ok (((List.range 43).drop 9).take 12) ∧
    c2cluster.get_blob 1 = .ok (((List.range 43).drop 21).take 15) ∧
    c2cluster.get_blob 2 = .panic := by decide

/-- C4: the compression dispatcher maps 4-bit codes 0 and 1 to `None`, 2 to
Zlib, 3 to Bzip2, 4 to Lzma2, 5 to Zstd, and every other 4-bit code to the
`UnknownCompression` error carrying that code. -/
theorem compression_dispatch_table (raw : Nat) (h : raw < 16) :
    (raw ≤ 1 → Compression.fromRaw raw = .ok .None) ∧
    (raw = 2 → Compression.fromRaw raw = .ok .Zlib) ∧
    (raw = 3 → Compression.fromRaw raw = .ok .Bzip2) ∧
    (raw = 4 → Compression.fromRaw raw = .ok .Lzma2) ∧
    (raw = 5 → Compression.fromRaw raw = .ok .Zstd) ∧
    (6 ≤ raw → Compression.fromRaw raw = .error (.UnknownCompression raw)) := by
  interval_cases raw <;> decide

/-- Witness for C4 at codes 2 and 9. -/
theorem compression_dispatch_table_witness :
    Compression.fromRaw 2 = .ok .Zlib ∧
    Compression.fromRaw 9 = .error (.UnknownCompression 9) :=
  ⟨(compression_dispatch_table 2 (by decide)).2.1 rfl,
   (compression_dispatch_table 9 (by decide)).2.2.2.2.2 (by decide)⟩

set_option maxRecDepth 4000 in
/-- C5: the details byte has layout `[reserved:3][extended:1][compression:4]`
read from the most significant end — for every byte the extended flag is
the bit of value 16 and the compression code is the low 4 bits — and in
particular byte `0b00000101` yields extended = false with scheme Zstd, and
`0b00010100` yields extended = true with scheme Lzma2. -/
theorem parse_details_layout :
    (∀ b : Nat, b < 256 →
      parse_details b =
        (Compression.fromRaw (b % 16)).map (fun c => (b / 16 % 2 == 1, c))) ∧
    parse_details 0b00000101 = .ok (false, .Zstd) ∧
    parse_details 0b00010100 = .ok (true, .Lzma2) := by
  refine ⟨by decide, by decide, by decide⟩

/-- Witness for C5 at byte 20 (`0b00010100`). -/
theorem parse_details_layout_witness :
    parse_details 20 =
      (Compression.fromRaw (20 % 16)).map (fun c => (20 / 16 % 2 == 1, c)) :=
  parse_details_layout.1 20 (by decide)

/-- C6 (code bug): for a Zlib or Bzip2 cluster that has not been
decompressed yet, `decompress` hits the source's `todo` marker — a panic —
instead of producing the decompressed bytes or a typed decode error. -/
theorem decompress_zlib_bzip2_todo_panics (xz zstd : List Nat → RustResult (List Nat))
    (st : InnerCluster) (hd : st.decompressed = none) :
    (st.compression = .Zlib → st.decompress xz zstd = .panic) ∧
    (st.compression = .Bzip2 → st.decompress xz zstd = .panic) := by
  constructor <;> intro hc <;> simp [InnerCluster.decompress, hd, hc]

/-- Witness for C6: concrete Zlib and Bzip2 clusters panic in `decompress`. -/
theorem decompress_zlib_bzip2_todo_panics_witness :
    InnerCluster.decompress c6dec c6dec c6zlib = .panic ∧
    InnerCluster.decompress c6dec c6dec c6bzip2 = .panic :=
  ⟨(decompress_zlib_bzip2_todo_panics c6dec c6dec c6zlib rfl).1 rfl,
   (decompress_zlib_bzip2_todo_panics c6dec c6dec c6bzip2 rfl).2 rfl⟩

/-- C7 counterexample: a cluster whose computed byte range is empty (start
and end both 5) makes construction panic at the assertion instead of
returning the typed `OutOfBounds` error. -/
theorem new_empty_range_panics_counterexample :
    InnerCluster.new (List.range 10) [5, 5] 0 9 5 = .panic ∧
    (RustResult.panic : RustResult InnerCluster) ≠ .error .OutOfBounds := by decide

/-- C7 amended: construction returns the typed `OutOfBounds` error when the
non-empty range exceeds the mapped region, but an empty range (end offset
not greater than start offset) hits a fatal assertion — a panic, not a
typed error. -/
theorem new_bounds_amended (mv cl : List Nat) (idx cp v : Nat) (h1 : idx < cl.length) :
    (endOf cl idx cp ≤ startOf cl idx → InnerCluster.new mv cl idx cp v = .panic) ∧
    (startOf cl idx < endOf cl idx cp → mv.length < endOf cl idx cp →
      InnerCluster.new mv cl idx cp v = .error .OutOfBounds) := by
  constructor
  · intro he
    simp only [InnerCluster.new]
    rw [if_pos h1, if_neg (show ¬(endOf cl idx cp > startOf cl idx) by omega)]
  · intro hs hm
    simp only [InnerCluster.new]
    rw [if_pos h1, if_pos (show endOf cl idx cp > startOf cl idx from hs)]
    have hcv : clusterView mv cl idx cp = none := by
      simp only [clusterView]
      rw [if_neg (by omega)]
    rw [hcv]

/-- Witness for C7: an empty range panics; a range past the region yields
`OutOfBounds`. -/
theorem new_bounds_amended_witness :
    InnerCluster.new (List.range 10) [4, 4] 0 9 5 = .panic ∧
    InnerCluster.new (List.range 10) [5] 0 20 5 = .error .OutOfBounds :=
  ⟨(new_bounds_amended (List.range 10) [4, 4] 0 9 5 (by decide)).1 (by decide),
   (new_bounds_amended (List.range 10) [5] 0 20 5 (by decide)).2 (by decide) (by decide)⟩

/-- C8 counterexample: with a 2-entry table present, `get_blob 5` panics on
the out-of-range `Vec` index instead of returning a typed index error. -/
theorem getBlob_index_out_of_range_panics :
    c8cluster.get_blob 5 = .panic ∧
    (RustResult.panic : RustResult (List Nat)) ≠ .error .MissingBlobList := by decide

/-- C8 amended: when the table is present an out-of-range blob index panics
(no typed, catchable result), and `MissingBlobList` is returned exactly
when the table does not exist yet. -/
theorem getBlob_errors_amended (st : InnerCluster) (idx : Nat) :
    (∀ list, st.blob_list = some list → list.length ≤ idx →
      st.get_blob idx = .panic) ∧
    (st.blob_list = none → st.get_blob idx = .error .MissingBlobList) := by
  constructor
  · intro list hbl hle
    simp only [InnerCluster.get_blob, hbl]
    rw [if_neg (by omega)]
  · intro hbl
    simp only [InnerCluster.get_blob, hbl]

/-- Witness for C8: out-of-range index 7 panics on a 2-entry table; a
table-less cluster reports `MissingBlobList`. -/
theorem getBlob_errors_amended_witness :
    c8cluster.get_blob 7 = .panic ∧
    c8nolist.get_blob 0 = .error .MissingBlobList :=
  ⟨(getBlob_errors_amended c8cluster 7).1 [8, 20] rfl (by decide),
   (getBlob_errors_amended c8nolist 0).2 rfl⟩

/-- C3: a second `get_blob` on the same cluster and blob index returns the
same state and byte-identical content for arbitrary decoders — so no
decompression work recurs — and `decompress` on a cluster whose
decompressed buffer and blob-offset table are already populated returns
the state unchanged without invoking any decoder. -/
theorem getBlob_idempotent_decompress_once :
    (∀ (xz zstd xz2 zstd2 : List Nat → RustResult (List Nat))
       (st st1 : InnerCluster) (idx : Nat) (b : List Nat),
       Cluster.get_blob xz zstd st idx = .ok (st1, b) →
       Cluster.get_blob xz2 zstd2 st1 idx = .ok (st1, b)) ∧
    (∀ (xz zstd : List Nat → RustResult (List Nat)) (st : InnerCluster)
       (d bl : List Nat),
       st.decompressed = some d → st.blob_list = some bl →
       st.decompress xz zstd = .ok st) := by
  constructor
  · intro xz zstd xz2 zstd2 st st1 idx b h
    have key : st1.get_blob idx = .ok b := by
      simp only [Cluster.get_blob] at h
      cases hens : (if st.needs_decompression then st.decompress xz zstd else .ok st) with
      | ok st2 =>
        rw [hens] at h
        simp only at h
        cases hgb : st2.get_blob idx with
        | ok b2 =>
          rw [hgb] at h
          simp only [RustResult.ok.injEq, Prod.mk.injEq] at h
          rw [h.1, h.2] at hgb
          exact hgb
        | error e => rw [hgb] at h; simp at h
        | panic => rw [hgb] at h; simp at h
      | error e => rw [hens] at h; simp at h
      | panic => rw [hens] at h; simp at h
    have hready := get_blob_ok_ready st1 idx b key
    simp [Cluster.get_blob, hready, key]
  · intro xz zstd st d bl hd hbl
    simp [InnerCluster.decompress, hd, hbl]

/-- Witness for C3: both parts applied to a ready compressed cluster with a
decoder stub that panics if invoked. -/
theorem getBlob_idempotent_decompress_once_witness :
    Cluster.get_blob c3dec c3dec c3cluster 0 = .ok (c3cluster, [8, 9, 10, 11]) ∧
    InnerCluster.decompress c3dec c3dec c3cluster = .ok c3cluster :=
  ⟨getBlob_idempotent_decompress_once.1 c3dec c3dec c3dec c3dec c3cluster c3cluster 0
     [8, 9, 10, 11] (by decide),
   getBlob_idempotent_decompress_once.2 c3dec c3dec c3cluster (List.range 20) [8, 12]
     rfl rfl⟩

/-- C9: when the cluster range is valid for the mapped region and the
details byte parses successfully, construction fails with
`InvalidClusterExtension` exactly when the extended-offset flag is set and
the major version is not 6 — in particular under major version 5. -/
theorem new_invalid_cluster_extension_iff (mv cl : List Nat) (idx cp v : Nat)
    (ext : Bool) (comp : Compression)
    (h1 : idx < cl.length)
    (h2 : startOf cl idx < endOf cl idx cp)
    (h3 : endOf cl idx cp ≤ mv.length)
    (h4 : parse_details ((mv.drop (startOf cl idx)).headD 0) = .ok (ext, comp)) :
    InnerCluster.new mv cl idx cp v = .error .InvalidClusterExtension ↔
      (ext = true ∧ v ≠ 6) := by
  have hcv : clusterView mv cl idx cp =
      some ((mv.drop (startOf cl idx)).take (endOf cl idx cp - startOf cl idx)) := by
    simp only [clusterView]
    rw [if_pos ⟨le_of_lt h2, h3⟩]
  have hlen :
      0 < ((mv.drop (startOf cl idx)).take (endOf cl idx cp - startOf cl idx)).length := by
    rw [List.length_take, List.length_drop]
    omega
  simp only [InnerCluster.new]
  rw [if_pos h1, if_pos (show endOf cl idx cp > startOf cl idx from h2), hcv]
  cases hct : (mv.drop (startOf cl idx)).take (endOf cl idx cp - startOf cl idx) with
  | nil => rw [hct] at hlen; simp at hlen
  | cons d t =>
    have hh := headD_take
      (l := mv.drop (startOf cl idx)) (k := endOf cl idx cp - startOf cl idx)
      (by omega) 0
    rw [hct, List.headD_cons] at hh
    rw [← hh] at h4
    simp only
    rw [h4]
    simp only
    constructor
    · intro heq
      by_contra hc
      rw [if_neg hc] at heq
      revert heq
      cases hbs : (if comp = Compression.None
          then (parse_blob_list ((d :: t).drop 1) ext).map some
          else (.ok none : RustResult (Option (List Nat)))) with
      | ok bl => intro heq; simp at heq
      | panic => intro heq; simp at heq
      | error e2 =>
        intro heq
        simp only at heq
        have he2 : e2 = .InvalidClusterExtension := by simpa using heq
        by_cases hcomp : comp = Compression.None
        · rw [if_pos hcomp] at hbs
          cases hpb : parse_blob_list ((d :: t).drop 1) ext with
          | ok l => rw [hpb] at hbs; simp [RustResult.map] at hbs
          | panic => rw [hpb] at hbs; simp [RustResult.map] at hbs
          | error e3 =>
            rw [hpb] at hbs
            simp only [RustResult.map, RustResult.error.injEq] at hbs
            have h33 := parse_blob_list_error_parsing _ _ _ hpb
            rw [hbs, he2] at h33
            exact absurd h33 (by simp)
        · rw [if_neg hcomp] at hbs
          simp at hbs
    · intro hc
      rw [if_pos hc]

/-- Witness for C9: a one-byte cluster whose details byte `0x10` sets the
extended flag, under major version 5, fails with `InvalidClusterExtension`. -/
theorem new_invalid_cluster_extension_iff_witness :
    InnerCluster.new [16] [0] 0 1 5 = .error .InvalidClusterExtension :=
  (new_invalid_cluster_extension_iff [16] [0] 0 1 5 true .None
      (by decide) (by decide) (by decide) (by decide)).mpr ⟨rfl, by decide⟩

/-- C10: `parse_blob_list` is total only when the first offset it reads is
at least the entry width: a smaller first offset makes the computed blob
count 0, the loop bound `count - 1` underflows (checked arithmetic) and the
function panics rather than returning a value or a typed error, while under
the precondition it never panics. -/
theorem parse_blob_list_total_iff_first_ge_width (data rest : List Nat) (ext : Bool)
    (first : Nat) (h : readLE (offWidth ext) data = some (first, rest)) :
    (first < offWidth ext → parse_blob_list data ext = .panic) ∧
    (offWidth ext ≤ first → parse_blob_list data ext ≠ .panic) := by
  have hw : 0 < offWidth ext := by cases ext <;> simp [offWidth]
  constructor
  · intro hlt
    simp only [parse_blob_list]
    rw [h]
    simp only
    rw [if_pos (Nat.div_eq_of_lt hlt)]
  · intro hge
    simp only [parse_blob_list]
    rw [h]
    simp only
    have hpos : 0 < first / offWidth ext := Nat.div_pos hge hw
    rw [if_neg (by omega)]
    cases he : readEntries (offWidth ext) (first / offWidth ext - 1) rest with
    | ok l => simp
    | error e => simp
    | panic => exact absurd he (readEntries_ne_panic _ _ _)

/-- Witness for C10: a first offset of 2 (below the 4-byte width) panics; a
first offset of 8 does not panic. -/
theorem parse_blob_list_total_witness :
    parse_blob_list [2, 0, 0, 0] false = .panic ∧
    parse_blob_list [8, 0, 0, 0] false ≠ .panic :=
  ⟨(parse_blob_list_total_iff_first_ge_width [2, 0, 0, 0] [] false 2 rfl).1 (by decide),
   (parse_blob_list_total_iff_first_ge_width [8, 0, 0, 0] [] false 8 rfl).2 (by decide)⟩

end Zim
